import Mathlib

/-!
Formal model of the task-queue and session-routing core of the `ccdd`
repository (a chat-to-CLI relay).  Every definition below is a shallow
embedding of the corresponding JavaScript function, translated clause by
clause from the source:

* per-chat task queue (`class TaskQueue`) — `src/unnamed/part_001`;
* CLI invoker result construction (`callClaude`, validated copy) —
  `src/unnamed/part_003`;
* session store (`class SessionManager`) — `src/session-manager.js`;
* shortcut expansion (`class ShortcutsManager`) — `src/shortcuts-manager.js`.

The JavaScript `Map`/object stores hold one independent record per chat key
and every operation reads and writes only its own chat's record, so the queue
model works directly on one chat's record (`QueueData`).  Values the real
code obtains from the environment — `Date.now()` timestamps and generated
task ids — are nondeterministic inputs and are passed to the model as
explicit arguments.  File persistence (`fs` calls) is write-only from the
perspective of the modelled logic and is not represented.
-/

namespace Ccdd

namespace TaskQueue

/-- Task status.  The source stores the strings `'pending'` / `'processing'`
in the `status` field (`addTask` sets `'pending'`, `startProcessing` sets
`'processing'`; no other value is ever assigned). -/
inductive TaskStatus where
  | pending
  | processing
deriving DecidableEq

/-- One queued task: the `taskWithMeta` object built in `addTask`
(src/unnamed/part_001), plus the `startedAt` field that `startProcessing`
adds.  `addedAt`/`startedAt` ISO strings are modelled as abstract `Nat`
timestamps. -/
structure Task where
  id : String
  prompt : String
  projectDir : Option String
  sessionId : Option String
  addedAt : Nat
  status : TaskStatus
  startedAt : Option Nat := none
deriving DecidableEq

/-- Per-chat record created on demand by `TaskQueue.getQueue`:
`{ queue: [], currentTask: null, isProcessing: false, currentProcess: null }`.
The process handle is modelled as a pid (`Nat`). -/
structure QueueData where
  queue : List Task
  currentTask : Option Task
  isProcessing : Bool
  currentProcess : Option Nat
deriving DecidableEq

/-- The fresh record `getQueue` installs for an unseen chat id. -/
def emptyQueueData : QueueData :=
  { queue := [], currentTask := none, isProcessing := false, currentProcess := none }

def MAX_QUEUE_SIZE : Nat := 10

def MAX_TASK_CONTENT_LENGTH : Nat := 10000

/-- The caller-supplied `task` argument of `addTask`.  `prompt = none` models
the JavaScript cases `!task || typeof task.prompt !== 'string'` (missing or
non-string prompt); `some p` models a genuine string prompt. -/
structure TaskInput where
  prompt : Option String
  projectDir : Option String
  sessionId : Option String

/-- Result object of `addTask`.  JavaScript returns `position: -1` on
failure, hence `Int`.  The `taskId` field is present only on success. -/
structure AddResult where
  success : Bool
  position : Int
  error : Option String
  taskId : Option String
deriving DecidableEq

/-- `TaskQueue.addTask(chatId, task)` (src/unnamed/part_001 lines 478-509).
Validation order as in the source: task/prompt type check, then length
check, then the queue-size check; on success the task is appended with
status `'pending'` and the 1-based position is returned.  `newId` stands
for the generated `Date.now().toString(36) + random` id and `now` for the
`addedAt` timestamp. -/
def addTask (q : QueueData) (input : TaskInput) (newId : String) (now : Nat) :
    AddResult × QueueData :=
  match input.prompt with
  | none =>
      ({ success := false, position := -1, error := some "Invalid task format",
         taskId := none }, q)
  | some p =>
      if p.length > MAX_TASK_CONTENT_LENGTH then
        ({ success := false, position := -1,
           error := some "Task content too long (max 10000 chars)", taskId := none }, q)
      else if q.queue.length ≥ MAX_QUEUE_SIZE then
        ({ success := false, position := -1,
           error := some "Queue full (max 10 tasks)", taskId := none }, q)
      else
        let t : Task :=
          { id := newId, prompt := p, projectDir := input.projectDir,
            sessionId := input.sessionId, addedAt := now, status := .pending }
        ({ success := true, position := (q.queue.length : Int) + 1, error := none,
           taskId := some newId },
         { q with queue := q.queue ++ [t] })

/-- `TaskQueue.startProcessing(chatId)` (the spec's `dispatchNext`,
src/unnamed/part_001 lines 626-638): returns null if already processing or
the queue is empty; otherwise marks the head task `'processing'`, records
`startedAt`, stores it in `currentTask` and returns it.  The source mutates
the head object in place, so the marked task is simultaneously `queue[0]`
and `currentTask`. -/
def startProcessing (q : QueueData) (now : Nat) : Option Task × QueueData :=
  if q.isProcessing || q.queue.isEmpty then
    (none, q)
  else
    match q.queue with
    | [] => (none, q)
    | t :: rest =>
        let t' := { t with status := TaskStatus.processing, startedAt := some now }
        (some t', { q with queue := t' :: rest, isProcessing := true, currentTask := some t' })

/-- `TaskQueue.completeTask(chatId, taskId)` (src/unnamed/part_001 lines
525-533): removes the first task whose id matches (`findIndex` + `splice`),
if any, and unconditionally resets `currentTask`/`isProcessing`.
`currentProcess` is left untouched by the source. -/
def completeTask (q : QueueData) (taskId : String) : QueueData :=
  { q with queue := q.queue.eraseP (fun t => t.id == taskId),
           currentTask := none, isProcessing := false }

/-- `TaskQueue.setCurrentProcess(chatId, process)` (src/unnamed/part_001
lines 538-541). -/
def setCurrentProcess (q : QueueData) (p : Option Nat) : QueueData :=
  { q with currentProcess := p }

/-- Result object of `cancelCurrent`.  `taskId` is present only on
success. -/
structure CancelResult where
  success : Bool
  message : String
  taskId : Option String
deriving DecidableEq

/-- `TaskQueue.cancelCurrent(chatId)` (src/unnamed/part_001 lines 547-581),
state part: early-out when `!isProcessing || !currentTask`; otherwise reset
to idle, null the process handle and remove the cancelled task from the
queue by id (`findIndex` + `splice`).  The SIGTERM/SIGKILL side effects of
the same function are modelled separately (`KillState` below). -/
def cancelCurrent (q : QueueData) : CancelResult × QueueData :=
  if q.isProcessing = false then
    ({ success := false, message := "No task is currently running", taskId := none }, q)
  else
    match q.currentTask with
    | none =>
        ({ success := false, message := "No task is currently running", taskId := none }, q)
    | some ct =>
        ({ success := true, message := "Task cancelled", taskId := some ct.id },
         { q with queue := q.queue.eraseP (fun t => t.id == ct.id),
                  currentTask := none, isProcessing := false, currentProcess := none })

/-- Result object of `clearQueue`. -/
structure ClearResult where
  success : Bool
  clearedCount : Int
deriving DecidableEq

/-- `TaskQueue.clearQueue(chatId)` (src/unnamed/part_001 lines 586-598):
`clearedCount = queue.length - (isProcessing ? 1 : 0)` computed up front;
when a task is processing the queue is filtered down to the tasks matching
`currentTask.id`, otherwise it is emptied. -/
def clearQueue (q : QueueData) : ClearResult × QueueData :=
  let clearedCount : Int := (q.queue.length : Int) - (if q.isProcessing then 1 else 0)
  match q.isProcessing, q.currentTask with
  | true, some ct =>
      ({ success := true, clearedCount },
       { q with queue := q.queue.filter (fun t => t.id == ct.id) })
  | _, _ =>
      ({ success := true, clearedCount }, { q with queue := [] })

/-! ### Queue invariants

`procInv` is the claimed per-chat invariant `isProcessing == true` iff
`currentTask != null`.  `onlyHeadProcessing` states that every task except
possibly the queue head is still `'pending'` — only `startProcessing` ever
marks a task, and it always marks the head. -/

def procInv (q : QueueData) : Prop :=
  q.isProcessing = true ↔ q.currentTask ≠ none

def onlyHeadProcessing (q : QueueData) : Prop :=
  ∀ t ∈ q.queue.tail, t.status = TaskStatus.pending

/-- Ids of distinct queue entries are distinct (the source generates ids from
`Date.now()` plus a random suffix; the spec treats them as unique per
process lifetime). -/
def idsNodup (q : QueueData) : Prop :=
  (q.queue.map Task.id).Nodup

/-- The processing task, when present, sits at the head of the queue
(`startProcessing` marks `queue[0]` and no operation reorders the queue). -/
def currentAtHead (q : QueueData) : Prop :=
  ∀ t, q.currentTask = some t → q.queue.head? = some t

def C1Inv (q : QueueData) : Prop :=
  procInv q ∧ onlyHeadProcessing q

instance : DecidablePred procInv := fun q => by unfold procInv; infer_instance

instance : DecidablePred onlyHeadProcessing := fun q => by
  unfold onlyHeadProcessing; infer_instance

instance : DecidablePred idsNodup := fun q => by
  unfold idsNodup; infer_instance

instance : DecidablePred currentAtHead := fun q => by
  unfold currentAtHead
  exact match q.currentTask with
    | none => .isTrue (by simp)
    | some t => decidable_of_iff (q.queue.head? = some t) (by simp)

instance : DecidablePred C1Inv := fun q => by unfold C1Inv; infer_instance

/-- Claim C2: the queue length never exceeds 10: an `addTask` attempted when the
chat's queue already holds 10 (or more) tasks is rejected — with the
`Queue full` error whenever the task itself passes validation — and leaves
the chat's state, in particular the queue contents, unchanged; and `addTask`
never grows a queue of length ≤ 10 beyond 10. -/
theorem c2_queue_full_rejected :
    (∀ q input newId now, MAX_QUEUE_SIZE ≤ q.queue.length →
        (addTask q input newId now).2 = q ∧ (addTask q input newId now).1.success = false) ∧
    (∀ q p pd sid newId now, MAX_QUEUE_SIZE ≤ q.queue.length →
        p.length ≤ MAX_TASK_CONTENT_LENGTH →
        (addTask q ⟨some p, pd, sid⟩ newId now).1.error = some "Queue full (max 10 tasks)") ∧
    (∀ q input newId now, q.queue.length ≤ MAX_QUEUE_SIZE →
        (addTask q input newId now).2.queue.length ≤ MAX_QUEUE_SIZE) := by
  refine ⟨?_, ?_, ?_⟩
  · intro q input newId now h
    cases hp : input.prompt with
    | none => simp [addTask, hp]
    | some p =>
      by_cases hl : p.length > MAX_TASK_CONTENT_LENGTH
      · simp [addTask, hp, hl]
      · simp [addTask, hp, hl, h]
  · intro q p pd sid newId now h hl
    simp [addTask, Nat.not_lt.mpr hl, h]
  · intro q input newId now h
    cases hp : input.prompt with
    | none => simpa [addTask, hp] using h
    | some p =>
      by_cases hl : p.length > MAX_TASK_CONTENT_LENGTH
      · simpa [addTask, hp, hl] using h
      · by_cases hf : q.queue.length ≥ MAX_QUEUE_SIZE
        · simpa [addTask, hp, hl, hf] using h
        · have hstep : (addTask q input newId now).2.queue.length = q.queue.length + 1 := by
            simp [addTask, hp, hl, hf]
          rw [hstep]
          simp only [MAX_QUEUE_SIZE] at hf ⊢
          omega

/-- Witness for C2: a queue already holding 10 tasks rejects a valid task
with the `Queue full` error and stays intact; an empty queue stays within
the bound. -/
theorem c2_queue_full_rejected_witness :
    ((addTask
        { queue := List.replicate 10
            { id := "w", prompt := "p", projectDir := none, sessionId := none,
              addedAt := 0, status := .pending },
          currentTask := none, isProcessing := false, currentProcess := none }
        ⟨some "hello", none, none⟩ "new" 5).1.error = some "Queue full (max 10 tasks)") ∧
    ((addTask emptyQueueData ⟨some "hello", none, none⟩ "new" 5).2.queue.length
        ≤ MAX_QUEUE_SIZE) := by
  constructor
  · exact c2_queue_full_rejected.2.1 _ "hello" none none "new" 5 (by decide) (by decide)
  · exact c2_queue_full_rejected.2.2 emptyQueueData ⟨some "hello", none, none⟩ "new" 5
      (by decide)

/-- Claim C4, amended: `addTask` rejects with the `Invalid task format` error,
without mutating the chat state, whenever the task's prompt is missing or
not a string, and with the `too long` error whenever the prompt exceeds
10000 characters.  (An *empty string* prompt, contrary to the original
claim, passes validation — see `c4_empty_prompt_accepted`.) -/
theorem c4_invalid_task_rejected :
    (∀ q pd sid newId now,
        addTask q ⟨none, pd, sid⟩ newId now =
          ({ success := false, position := -1, error := some "Invalid task format",
             taskId := none }, q)) ∧
    (∀ q p pd sid newId now, p.length > MAX_TASK_CONTENT_LENGTH →
        addTask q ⟨some p, pd, sid⟩ newId now =
          ({ success := false, position := -1,
             error := some "Task content too long (max 10000 chars)", taskId := none }, q)) := by
  constructor
  · intro q pd sid newId now
    rfl
  · intro q p pd sid newId now h
    simp [addTask, h]

/-- Counterexample to claim C4 as stated: an empty-string prompt is *not*
rejected by `addTask` — it is assigned an id and appended to the queue. -/
theorem c4_empty_prompt_accepted :
    (addTask emptyQueueData ⟨some "", none, none⟩ "t1" 0).1.success = true ∧
    (addTask emptyQueueData ⟨some "", none, none⟩ "t1" 0).1.taskId = some "t1" ∧
    (addTask emptyQueueData ⟨some "", none, none⟩ "t1" 0).2.queue.length = 1 := by
  decide

/-- Witness for the amended C4: both rejection branches fire on concrete
inputs (a missing prompt; a 10001-character prompt). -/
theorem c4_invalid_task_rejected_witness :
    (addTask emptyQueueData ⟨none, none, none⟩ "t1" 0).1.success = false ∧
    (addTask emptyQueueData
        ⟨some (String.mk (List.replicate 10001 'a')), none, none⟩ "t1" 0).1.error =
      some "Task content too long (max 10000 chars)" := by
  have hlen : (String.mk (List.replicate 10001 'a')).length > MAX_TASK_CONTENT_LENGTH := by
    show (List.replicate 10001 'a').length > MAX_TASK_CONTENT_LENGTH
    rw [List.length_replicate]
    decide
  constructor
  · rw [c4_invalid_task_rejected.1 emptyQueueData none none "t1" 0]
  · rw [c4_invalid_task_rejected.2 emptyQueueData (String.mk (List.replicate 10001 'a'))
      none none "t1" 0 hlen]

/-! ### Characterizations of the queue operations -/

theorem mem_of_mem_tail {α : Type} {x : α} {l : List α} (h : x ∈ l.tail) : x ∈ l := by
  cases l with
  | nil => simp at h
  | cons a rest => exact List.mem_cons_of_mem a h

theorem addTask_snd (q : QueueData) (input : TaskInput) (newId : String) (now : Nat) :
    (addTask q input newId now).2 = q ∨
    ∃ p, input.prompt = some p ∧ ¬p.length > MAX_TASK_CONTENT_LENGTH ∧
      ¬q.queue.length ≥ MAX_QUEUE_SIZE ∧
      (addTask q input newId now).2 =
        { q with queue := q.queue ++
            [{ id := newId, prompt := p, projectDir := input.projectDir,
               sessionId := input.sessionId, addedAt := now, status := .pending }] } := by
  cases hp : input.prompt with
  | none => left; simp [addTask, hp]
  | some p =>
    by_cases hl : p.length > MAX_TASK_CONTENT_LENGTH
    · left; simp [addTask, hp, hl]
    · by_cases hf : q.queue.length ≥ MAX_QUEUE_SIZE
      · left; simp [addTask, hp, hl, hf]
      · right; exact ⟨p, rfl, hl, hf, by simp [addTask, hp, hl, hf]⟩

theorem startProcessing_eq (q : QueueData) (now : Nat) :
    ((q.isProcessing = true ∨ q.queue = []) ∧ startProcessing q now = (none, q)) ∨
    (∃ t rest, q.isProcessing = false ∧ q.queue = t :: rest ∧
      startProcessing q now =
        (some { t with status := TaskStatus.processing, startedAt := some now },
         { q with
             queue := { t with status := TaskStatus.processing, startedAt := some now } :: rest,
             isProcessing := true,
             currentTask :=
               some { t with status := TaskStatus.processing, startedAt := some now } })) := by
  cases hb : q.isProcessing with
  | true => left; exact ⟨Or.inl rfl, by simp [startProcessing, hb]⟩
  | false =>
    cases hq : q.queue with
    | nil => left; exact ⟨Or.inr rfl, by simp [startProcessing, hb, hq]⟩
    | cons t rest =>
      right
      exact ⟨t, rest, rfl, rfl, by simp [startProcessing, hb, hq]⟩

theorem cancelCurrent_eq (q : QueueData) :
    ((q.isProcessing = false ∨ q.currentTask = none) ∧
      cancelCurrent q =
        ({ success := false, message := "No task is currently running", taskId := none }, q)) ∨
    (∃ ct, q.isProcessing = true ∧ q.currentTask = some ct ∧
      cancelCurrent q =
        ({ success := true, message := "Task cancelled", taskId := some ct.id },
         { q with queue := q.queue.eraseP (fun t => t.id == ct.id),
                  currentTask := none, isProcessing := false, currentProcess := none })) := by
  cases hb : q.isProcessing with
  | false => left; exact ⟨Or.inl rfl, by simp [cancelCurrent, hb]⟩
  | true =>
    cases hct : q.currentTask with
    | none => left; exact ⟨Or.inr rfl, by simp [cancelCurrent, hb, hct]⟩
    | some ct => right; exact ⟨ct, rfl, rfl, by simp [cancelCurrent, hb, hct]⟩

theorem clearQueue_eq (q : QueueData) :
    (∃ ct, q.isProcessing = true ∧ q.currentTask = some ct ∧
      clearQueue q = ({ success := true, clearedCount := (q.queue.length : Int) - 1 },
        { q with queue := q.queue.filter (fun t => t.id == ct.id) })) ∨
    ((q.isProcessing = false ∨ q.currentTask = none) ∧
      clearQueue q =
        ({ success := true,
           clearedCount := (q.queue.length : Int) - (if q.isProcessing then 1 else 0) },
         { q with queue := [] })) := by
  cases hb : q.isProcessing with
  | false => right; exact ⟨Or.inl rfl, by simp [clearQueue, hb]⟩
  | true =>
    cases hct : q.currentTask with
    | none => right; exact ⟨Or.inr rfl, by simp [clearQueue, hb, hct]⟩
    | some ct => left; exact ⟨ct, rfl, rfl, by simp [clearQueue, hb, hct]⟩

/-! ### Invariant preservation helpers -/

theorem tail_pending_append {l : List Task} {t : Task}
    (h : ∀ x ∈ l.tail, x.status = TaskStatus.pending) (ht : t.status = TaskStatus.pending) :
    ∀ x ∈ (l ++ [t]).tail, x.status = TaskStatus.pending := by
  cases l with
  | nil => simp [ht]
  | cons a rest =>
    intro x hx
    simp only [List.cons_append, List.tail_cons, List.mem_append, List.mem_singleton] at hx
    rcases hx with hx | hx
    · exact h x (by simpa using hx)
    · rw [hx]; exact ht

theorem mem_tail_of_mem_tail_eraseP {α : Type} (p : α → Bool) (l : List α) (x : α)
    (hx : x ∈ (l.eraseP p).tail) : x ∈ l.tail := by
  cases l with
  | nil => simp at hx
  | cons a rest =>
    rw [List.eraseP_cons] at hx
    by_cases hpa : p a
    · simp only [hpa, cond_true] at hx
      exact mem_of_mem_tail hx
    · simp only [hpa, cond_false, List.tail_cons] at hx
      exact (List.eraseP_sublist rest).subset hx

theorem mem_tail_of_mem_tail_filter {α : Type} (p : α → Bool) (l : List α) (x : α)
    (hx : x ∈ (l.filter p).tail) : x ∈ l.tail := by
  cases l with
  | nil => simp at hx
  | cons a rest =>
    rw [List.filter_cons] at hx
    by_cases hpa : p a
    · simp [hpa] at hx
      exact hx.1
    · simp [hpa] at hx
      exact List.mem_of_mem_filter (mem_of_mem_tail hx)

theorem countP_processing_le_one (q : QueueData) (h : onlyHeadProcessing q) :
    q.queue.countP (fun t => t.status == TaskStatus.processing) ≤ 1 := by
  cases hq : q.queue with
  | nil => simp
  | cons a rest =>
    rw [List.countP_cons]
    have hz : rest.countP (fun t => t.status == TaskStatus.processing) = 0 := by
      rw [List.countP_eq_zero]
      intro x hx
      have hp := h x (by rw [hq]; exact hx)
      simp [hp]
    rw [hz]
    split <;> omega

/-- Claim C1: for every chat, at most one task is ever in `processing` state:
the claimed invariant `isProcessing == true` iff `currentTask != null`
(strengthened with "every task beyond the queue head is still pending")
holds for the fresh per-chat record and is preserved by every queue
operation; under it at most one queued task has status `processing`; and
calling `startProcessing` (the spec's `dispatchNext`) a second time without
an intervening `completeTask` returns null. -/
theorem c1_at_most_one_processing :
    C1Inv emptyQueueData ∧
    (∀ q input newId now, C1Inv q → C1Inv (addTask q input newId now).2) ∧
    (∀ q now, C1Inv q → C1Inv (startProcessing q now).2) ∧
    (∀ q tid, C1Inv q → C1Inv (completeTask q tid)) ∧
    (∀ q, C1Inv q → C1Inv (cancelCurrent q).2) ∧
    (∀ q, C1Inv q → C1Inv (clearQueue q).2) ∧
    (∀ q p, C1Inv q → C1Inv (setCurrentProcess q p)) ∧
    (∀ q, C1Inv q → q.queue.countP (fun t => t.status == TaskStatus.processing) ≤ 1) ∧
    (∀ q now1 now2, (startProcessing (startProcessing q now1).2 now2).1 = none) := by
  refine ⟨by decide, ?_, ?_, ?_, ?_, ?_, ?_, ?_, ?_⟩
  · intro q input newId now h
    rcases addTask_snd q input newId now with e | ⟨p, hp, hl, hf, e⟩
    · rw [e]; exact h
    · rw [e]
      exact ⟨h.1, tail_pending_append h.2 rfl⟩
  · intro q now h
    rcases startProcessing_eq q now with ⟨h1, e⟩ | ⟨t, rest, hb, hq, e⟩
    · rw [e]; exact h
    · rw [e]
      refine ⟨by simp [procInv], ?_⟩
      intro x hx
      simp only [List.tail_cons] at hx
      exact h.2 x (by rw [hq]; simpa using hx)
  · intro q tid h
    refine ⟨by simp [completeTask, procInv], ?_⟩
    intro x hx
    exact h.2 x (mem_tail_of_mem_tail_eraseP _ _ _ hx)
  · intro q h
    rcases cancelCurrent_eq q with ⟨h1, e⟩ | ⟨ct, hb, hct, e⟩
    · rw [e]; exact h
    · rw [e]
      refine ⟨by simp [procInv], ?_⟩
      intro x hx
      exact h.2 x (mem_tail_of_mem_tail_eraseP _ _ _ hx)
  · intro q h
    rcases clearQueue_eq q with ⟨ct, hb, hct, e⟩ | ⟨h1, e⟩
    · rw [e]
      refine ⟨h.1, ?_⟩
      intro x hx
      exact h.2 x (mem_tail_of_mem_tail_filter _ _ _ hx)
    · rw [e]
      exact ⟨h.1, by simp [onlyHeadProcessing]⟩
  · intro q p h
    exact ⟨h.1, h.2⟩
  · exact fun q h => countP_processing_le_one q h.2
  · intro q now1 now2
    rcases startProcessing_eq q now1 with ⟨h1, e⟩ | ⟨t, rest, hb, hq, e⟩
    · rw [e]
      rcases h1 with hb | hq
      · simp [startProcessing, hb]
      · simp [startProcessing, hq]
    · rw [e]
      simp [startProcessing]

/-- Witness for C1: dispatching the single pending task of a concrete
one-task chat preserves the invariant, and a concrete queue with one
processing head has at most one processing task. -/
theorem c1_at_most_one_processing_witness :
    C1Inv (startProcessing
      { queue := [{ id := "a", prompt := "x", projectDir := none, sessionId := none,
                    addedAt := 0, status := .pending }],
        currentTask := none, isProcessing := false, currentProcess := none } 1).2 ∧
    ({ queue := [{ id := "a", prompt := "x", projectDir := none, sessionId := none,
                   addedAt := 0, status := TaskStatus.processing, startedAt := some 1 }],
       currentTask := some { id := "a", prompt := "x", projectDir := none, sessionId := none,
                             addedAt := 0, status := TaskStatus.processing, startedAt := some 1 },
       isProcessing := true, currentProcess := none } : QueueData).queue.countP
      (fun t => t.status == TaskStatus.processing) ≤ 1 := by
  constructor
  · exact c1_at_most_one_processing.2.2.1 _ 1 (by decide)
  · exact c1_at_most_one_processing.2.2.2.2.2.2.2.1 _ (by decide)

theorem eraseP_id_no_match (tid : String) (l : List Task) (h : (l.map Task.id).Nodup) :
    ∀ x ∈ l.eraseP (fun t => t.id == tid), (x.id == tid) = false := by
  induction l with
  | nil => simp
  | cons a rest ih =>
    rw [List.map_cons, List.nodup_cons] at h
    rw [List.eraseP_cons]
    by_cases hpa : a.id == tid
    · simp only [hpa, cond_true]
      intro x hx
      have ha : a.id = tid := by simpa using hpa
      simp only [beq_eq_false_iff_ne]
      intro heq
      exact h.1 (List.mem_map.mpr ⟨x, hx, by rw [heq, ha]⟩)
    · have hpa' : (a.id == tid) = false := by simpa using hpa
      simp only [hpa', cond_false]
      intro x hx
      rcases List.mem_cons.mp hx with rfl | hx
      · exact hpa'
      · exact ih h.2 x hx

/-- Claim C10: `completeTask` unconditionally resets the chat to idle
(`isProcessing = false`, `currentTask = null`) even when no task with the
given id is in the queue, and (when queued ids are distinct) it is
idempotent: completing the same task id twice leaves the state of the
single call. -/
theorem c10_completeTask_resets_and_idempotent :
    (∀ q tid, (completeTask q tid).isProcessing = false ∧
        (completeTask q tid).currentTask = none) ∧
    (∀ q tid, idsNodup q → completeTask (completeTask q tid) tid = completeTask q tid) := by
  constructor
  · intro q tid
    exact ⟨rfl, rfl⟩
  · intro q tid h
    have he : (q.queue.eraseP (fun t => t.id == tid)).eraseP (fun t => t.id == tid) =
        q.queue.eraseP (fun t => t.id == tid) := by
      apply List.eraseP_of_forall_not
      intro a ha
      simp [eraseP_id_no_match tid q.queue h a ha]
    simp [completeTask, he]

/-- Witness for C10: completing the head task of a concrete two-task chat
twice equals completing it once. -/
theorem c10_completeTask_witness :
    completeTask (completeTask
      { queue := [{ id := "a", prompt := "x", projectDir := none, sessionId := none,
                    addedAt := 0, status := TaskStatus.processing },
                  { id := "b", prompt := "y", projectDir := none, sessionId := none,
                    addedAt := 1, status := .pending }],
        currentTask := some { id := "a", prompt := "x", projectDir := none, sessionId := none,
                              addedAt := 0, status := TaskStatus.processing },
        isProcessing := true, currentProcess := none } "a") "a" =
    completeTask
      { queue := [{ id := "a", prompt := "x", projectDir := none, sessionId := none,
                    addedAt := 0, status := TaskStatus.processing },
                  { id := "b", prompt := "y", projectDir := none, sessionId := none,
                    addedAt := 1, status := .pending }],
        currentTask := some { id := "a", prompt := "x", projectDir := none, sessionId := none,
                              addedAt := 0, status := TaskStatus.processing },
        isProcessing := true, currentProcess := none } "a" :=
  c10_completeTask_resets_and_idempotent.2 _ "a" (by decide)

/-- Claim C3: `cancelCurrent` on a chat with no active task returns
`success:false` and leaves the state (in particular the queue contents)
unchanged; on a chat with an active task it removes exactly that task (the
queue becomes its former tail), resets the chat to idle, and a subsequent
`startProcessing` returns the next pending task if any — never the
cancelled one. -/
theorem c3_cancelCurrent :
    (∀ q, q.isProcessing = false ∨ q.currentTask = none →
        cancelCurrent q =
          ({ success := false, message := "No task is currently running", taskId := none }, q)) ∧
    (∀ q ct now, idsNodup q → currentAtHead q → onlyHeadProcessing q →
        q.isProcessing = true → q.currentTask = some ct →
        (cancelCurrent q).1 =
          { success := true, message := "Task cancelled", taskId := some ct.id } ∧
        (cancelCurrent q).2.queue = q.queue.tail ∧
        (cancelCurrent q).2.isProcessing = false ∧
        (cancelCurrent q).2.currentTask = none ∧
        (q.queue.tail = [] → (startProcessing (cancelCurrent q).2 now).1 = none) ∧
        (∀ t rest, q.queue.tail = t :: rest →
            (startProcessing (cancelCurrent q).2 now).1 =
              some { t with status := TaskStatus.processing, startedAt := some now } ∧
            t.id ≠ ct.id ∧ t.status = TaskStatus.pending)) := by
  constructor
  · intro q hdisj
    rcases cancelCurrent_eq q with ⟨h1, e⟩ | ⟨ct, hb, hct, e⟩
    · exact e
    · rcases hdisj with h' | h'
      · rw [hb] at h'; simp at h'
      · rw [hct] at h'; simp at h'
  · intro q ct now hnd hch hohp hb hctask
    have hhead : q.queue.head? = some ct := hch ct hctask
    obtain ⟨rest, hq⟩ : ∃ rest, q.queue = ct :: rest := by
      cases hq : q.queue with
      | nil => rw [hq] at hhead; simp at hhead
      | cons a r =>
        rw [hq] at hhead
        simp only [List.head?_cons, Option.some.injEq] at hhead
        exact ⟨r, by rw [hhead]⟩
    have herase : q.queue.eraseP (fun t => t.id == ct.id) = rest := by
      rw [hq, List.eraseP_cons]
      simp
    have htail : q.queue.tail = rest := by rw [hq]; rfl
    rcases cancelCurrent_eq q with ⟨h1, e⟩ | ⟨ct', hb', hct', e⟩
    · rcases h1 with h' | h'
      · rw [hb] at h'; simp at h'
      · rw [hctask] at h'; simp at h'
    · have hcc : some ct = some ct' := hctask.symm.trans hct'
      injection hcc with hcc
      subst hcc
      rw [e]
      refine ⟨rfl, ?_, rfl, rfl, ?_, ?_⟩
      · show q.queue.eraseP (fun t => t.id == ct.id) = q.queue.tail
        rw [herase, htail]
      · intro ht0
        rw [htail] at ht0
        simp [startProcessing, herase, ht0]
      · intro t rest' ht
        rw [htail] at ht
        subst ht
        refine ⟨by simp [startProcessing, herase], ?_, ?_⟩
        · unfold idsNodup at hnd
          rw [hq, List.map_cons, List.nodup_cons] at hnd
          intro heq
          exact hnd.1 (by rw [List.map_cons, ← heq]; exact List.mem_cons_self _ _)
        · exact hohp t (by rw [htail]; exact List.mem_cons_self _ _)

/-- Witness for C3: cancelling an idle chat is a rejected no-op; cancelling
a concrete chat whose head task is processing removes it, and the next
dispatch returns the (distinct, pending) second task. -/
theorem c3_cancelCurrent_witness :
    cancelCurrent emptyQueueData =
      ({ success := false, message := "No task is currently running", taskId := none },
       emptyQueueData) ∧
    ((cancelCurrent
        { queue := [{ id := "a", prompt := "x", projectDir := none, sessionId := none,
                      addedAt := 0, status := TaskStatus.processing },
                    { id := "b", prompt := "y", projectDir := none, sessionId := none,
                      addedAt := 1, status := .pending }],
          currentTask := some { id := "a", prompt := "x", projectDir := none,
                                sessionId := none, addedAt := 0,
                                status := TaskStatus.processing },
          isProcessing := true, currentProcess := some 7 }).1.success = true) := by
  constructor
  · exact c3_cancelCurrent.1 emptyQueueData (Or.inl rfl)
  · have h := c3_cancelCurrent.2
      { queue := [{ id := "a", prompt := "x", projectDir := none, sessionId := none,
                    addedAt := 0, status := TaskStatus.processing },
                  { id := "b", prompt := "y", projectDir := none, sessionId := none,
                    addedAt := 1, status := .pending }],
        currentTask := some { id := "a", prompt := "x", projectDir := none,
                              sessionId := none, addedAt := 0,
                              status := TaskStatus.processing },
        isProcessing := true, currentProcess := some 7 }
      { id := "a", prompt := "x", projectDir := none, sessionId := none,
        addedAt := 0, status := TaskStatus.processing } 9
      (by decide) (by decide) (by decide) rfl rfl
    rw [h.1]

/-- Claim C5: `clearQueue` removes exactly the pending tasks.  When a task is
processing (and queued ids are distinct, the processing task sitting at the
head), the queue is reduced to exactly that task, the chat stays
processing it, and `clearedCount` is the former length minus one; on a
non-processing chat the queue is emptied and `clearedCount` is the number
of removed tasks, i.e. the former length. -/
theorem c5_clearQueue :
    (∀ q ct, idsNodup q → currentAtHead q → q.isProcessing = true →
        q.currentTask = some ct →
        (clearQueue q).2.queue = [ct] ∧
        (clearQueue q).1.clearedCount = (q.queue.length : Int) - 1 ∧
        (clearQueue q).2.currentTask = some ct ∧
        (clearQueue q).2.isProcessing = true) ∧
    (∀ q, q.isProcessing = false →
        (clearQueue q).2.queue = [] ∧
        (clearQueue q).1.clearedCount = (q.queue.length : Int)) := by
  constructor
  · intro q ct hnd hch hb hctask
    have hhead : q.queue.head? = some ct := hch ct hctask
    obtain ⟨rest, hq⟩ : ∃ rest, q.queue = ct :: rest := by
      cases hq : q.queue with
      | nil => rw [hq] at hhead; simp at hhead
      | cons a r =>
        rw [hq] at hhead
        simp only [List.head?_cons, Option.some.injEq] at hhead
        exact ⟨r, by rw [hhead]⟩
    have hfilter : q.queue.filter (fun t => t.id == ct.id) = [ct] := by
      rw [hq, List.filter_cons]
      simp only [beq_self_eq_true, if_true]
      have : rest.filter (fun t => t.id == ct.id) = [] := by
        rw [List.filter_eq_nil_iff]
        intro x hx
        unfold idsNodup at hnd
        rw [hq, List.map_cons, List.nodup_cons] at hnd
        simp only [beq_iff_eq]
        intro heq
        exact hnd.1 (List.mem_map.mpr ⟨x, hx, heq⟩)
      rw [this]
    rcases clearQueue_eq q with ⟨ct', hb', hct', e⟩ | ⟨h1, e⟩
    · have hcc : some ct = some ct' := hctask.symm.trans hct'
      injection hcc with hcc
      subst hcc
      rw [e]
      exact ⟨hfilter, rfl, hctask, hb⟩
    · rcases h1 with h' | h'
      · rw [hb] at h'; simp at h'
      · rw [hctask] at h'; simp at h'
  · intro q hb
    rcases clearQueue_eq q with ⟨ct', hb', hct', e⟩ | ⟨h1, e⟩
    · rw [hb] at hb'; simp at hb'
    · rw [e]
      simp [hb]

/-- Witness for C5: on a concrete chat with 1 processing + 5 pending tasks,
`clearQueue` keeps exactly the processing task and reports
`clearedCount = 5`; an idle one-task chat is emptied with
`clearedCount = 1`. -/
theorem c5_clearQueue_witness :
    ((clearQueue
        { queue := [{ id := "a", prompt := "t0", projectDir := none, sessionId := none,
                      addedAt := 0, status := TaskStatus.processing },
                    { id := "b", prompt := "t1", projectDir := none, sessionId := none,
                      addedAt := 1, status := .pending },
                    { id := "c", prompt := "t2", projectDir := none, sessionId := none,
                      addedAt := 2, status := .pending },
                    { id := "d", prompt := "t3", projectDir := none, sessionId := none,
                      addedAt := 3, status := .pending },
                    { id := "e", prompt := "t4", projectDir := none, sessionId := none,
                      addedAt := 4, status := .pending },
                    { id := "f", prompt := "t5", projectDir := none, sessionId := none,
                      addedAt := 5, status := .pending }],
          currentTask := some { id := "a", prompt := "t0", projectDir := none,
                                sessionId := none, addedAt := 0,
                                status := TaskStatus.processing },
          isProcessing := true, currentProcess := some 3 }).2.queue.length = 1 ∧
     (clearQueue
        { queue := [{ id := "a", prompt := "t0", projectDir := none, sessionId := none,
                      addedAt := 0, status := TaskStatus.processing },
                    { id := "b", prompt := "t1", projectDir := none, sessionId := none,
                      addedAt := 1, status := .pending },
                    { id := "c", prompt := "t2", projectDir := none, sessionId := none,
                      addedAt := 2, status := .pending },
                    { id := "d", prompt := "t3", projectDir := none, sessionId := none,
                      addedAt := 3, status := .pending },
                    { id := "e", prompt := "t4", projectDir := none, sessionId := none,
                      addedAt := 4, status := .pending },
                    { id := "f", prompt := "t5", projectDir := none, sessionId := none,
                      addedAt := 5, status := .pending }],
          currentTask := some { id := "a", prompt := "t0", projectDir := none,
                                sessionId := none, addedAt := 0,
                                status := TaskStatus.processing },
          isProcessing := true, currentProcess := some 3 }).1.clearedCount = 5) ∧
    ((clearQueue
        { queue := [{ id := "g", prompt := "t6", projectDir := none, sessionId := none,
                      addedAt := 6, status := .pending }],
          currentTask := none, isProcessing := false,
          currentProcess := none }).2.queue = [] ∧
     (clearQueue
        { queue := [{ id := "g", prompt := "t6", projectDir := none, sessionId := none,
                      addedAt := 6, status := .pending }],
          currentTask := none, isProcessing := false,
          currentProcess := none }).1.clearedCount = 1) := by
  constructor
  · have h := c5_clearQueue.1
      { queue := [{ id := "a", prompt := "t0", projectDir := none, sessionId := none,
                    addedAt := 0, status := TaskStatus.processing },
                  { id := "b", prompt := "t1", projectDir := none, sessionId := none,
                    addedAt := 1, status := .pending },
                  { id := "c", prompt := "t2", projectDir := none, sessionId := none,
                    addedAt := 2, status := .pending },
                  { id := "d", prompt := "t3", projectDir := none, sessionId := none,
                    addedAt := 3, status := .pending },
                  { id := "e", prompt := "t4", projectDir := none, sessionId := none,
                    addedAt := 4, status := .pending },
                  { id := "f", prompt := "t5", projectDir := none, sessionId := none,
                    addedAt := 5, status := .pending }],
        currentTask := some { id := "a", prompt := "t0", projectDir := none,
                              sessionId := none, addedAt := 0,
                              status := TaskStatus.processing },
        isProcessing := true, currentProcess := some 3 }
      { id := "a", prompt := "t0", projectDir := none, sessionId := none,
        addedAt := 0, status := TaskStatus.processing }
      (by decide) (by decide) rfl rfl
    refine ⟨?_, ?_⟩
    · rw [h.1]
      rfl
    · rw [h.2.1]
      rfl
  · exact c5_clearQueue.2
      { queue := [{ id := "g", prompt := "t6", projectDir := none, sessionId := none,
                    addedAt := 6, status := .pending }],
        currentTask := none, isProcessing := false, currentProcess := none } rfl

/-! ### Kill/timer side effects of `cancelCurrent` (claim C6)

The state part of `cancelCurrent` is `cancelCurrent` above; the
SIGTERM/SIGKILL side effects of the same source lines are modelled here as
an explicit little transition system so that the timing-dependent claim can
be examined. -/

/-- Signals the kill logic can deliver to an OS process (identified by
pid). -/
inductive Sig where
  | sigterm (pid : Nat)
  | sigkill (pid : Nat)
deriving DecidableEq

/-- Process-handle state relevant to the kill logic of `cancelCurrent`:
the handle registered via `setCurrentProcess` and the fire times of
scheduled forced-kill timers.  The source never calls `clearTimeout` on
such a timer, so the model has no operation that removes one. -/
structure KillState where
  currentProcess : Option Nat
  forceKillTimers : List Nat
deriving DecidableEq

/-- Kill part of `cancelCurrent` (src/unnamed/part_001 lines 554-567): if a
handle is registered, it is sent SIGTERM and a forced-kill timer is
scheduled 5000 ms out; the handle slot is then nulled (line 572 of the same
function). -/
def cancelCurrentKill (s : KillState) (now : Nat) : KillState × List Sig :=
  match s.currentProcess with
  | some pid =>
      ({ currentProcess := none, forceKillTimers := s.forceKillTimers ++ [now + 5000] },
       [Sig.sigterm pid])
  | none => ({ s with currentProcess := none }, [])

/-- `setCurrentProcess` as seen by the kill logic: registering the
subprocess handle of a newly dispatched task. -/
def registerProcess (s : KillState) (p : Option Nat) : KillState :=
  { s with currentProcess := p }

/-- Firing of a scheduled forced-kill timer: the callback reads
`queueData.currentProcess` *at fire time* and calls `.kill('SIGKILL')` on
it; when the slot is null the resulting exception is caught and ignored,
so no signal is delivered. -/
def fireForceKill (s : KillState) : List Sig :=
  match s.currentProcess with
  | some pid => [Sig.sigkill pid]
  | none => []

/-- Claim C6, evidence of the code bug: the forced-kill timer scheduled by
`cancelCurrent` is *not* canceled when the cancelled subprocess exits
within the 5-second grace period.  Concrete run: cancel at t=0 with
registered pid 100 (SIGTERM sent, timer scheduled for t=5000); the
subprocess exits; a new task's subprocess pid 200 is registered before
t=5000; the timer is still pending and its firing delivers SIGKILL to
pid 200 — a forced kill delivered after the cancelled process already
exited, aimed at an unrelated process.  Had no new handle been registered,
the callback would have hit the nulled slot and delivered nothing. -/
theorem c6_force_kill_timer_not_canceled :
    (cancelCurrentKill { currentProcess := some 100, forceKillTimers := [] } 0).2 =
      [Sig.sigterm 100] ∧
    (cancelCurrentKill { currentProcess := some 100, forceKillTimers := [] } 0).1.forceKillTimers =
      [5000] ∧
    fireForceKill (cancelCurrentKill { currentProcess := some 100, forceKillTimers := [] } 0).1 =
      [] ∧
    (registerProcess
        (cancelCurrentKill { currentProcess := some 100, forceKillTimers := [] } 0).1
        (some 200)).forceKillTimers = [5000] ∧
    fireForceKill
      (registerProcess
        (cancelCurrentKill { currentProcess := some 100, forceKillTimers := [] } 0).1
        (some 200)) = [Sig.sigkill 200] := by
  decide

end TaskQueue

namespace ClaudeCli

/-- `s.includes(pat)` on character lists: true iff `pat` occurs contiguously
in the scanned list (checked at every suffix). -/
def containsSubstrChars (pat : List Char) : List Char → Bool
  | [] => pat.isEmpty
  | c :: rest => pat.isPrefixOf (c :: rest) || containsSubstrChars pat rest

/-- JavaScript `stderr.includes(pat)`. -/
def containsSubstr (s pat : String) : Bool :=
  containsSubstrChars pat.data s.data

/-- Specification-side statement of substring containment. -/
def ContainsSubstr (s pat : String) : Prop :=
  ∃ l r, s.data = l ++ pat.data ++ r

theorem containsSubstrChars_iff (pat l : List Char) :
    containsSubstrChars pat l = true ↔ ∃ l1 l2, l = l1 ++ pat ++ l2 := by
  induction l with
  | nil =>
    simp only [containsSubstrChars, List.isEmpty_iff]
    constructor
    · intro h; exact ⟨[], [], by simp [h]⟩
    · rintro ⟨l1, l2, h⟩
      rcases List.append_eq_nil.mp h.symm with ⟨h1, h2⟩
      exact (List.append_eq_nil.mp h1).2
  | cons c rest ih =>
    simp only [containsSubstrChars, Bool.or_eq_true, List.isPrefixOf_iff_prefix, ih]
    constructor
    · rintro (⟨t, ht⟩ | ⟨l1, l2, h⟩)
      · exact ⟨[], t, by simp [← ht]⟩
      · exact ⟨c :: l1, l2, by simp [h]⟩
    · rintro ⟨l1, l2, h⟩
      cases l1 with
      | nil =>
        left
        exact ⟨l2, by simpa using h.symm⟩
      | cons a l1' =>
        right
        simp only [List.cons_append, List.cons.injEq] at h
        exact ⟨l1', l2, h.2⟩

theorem containsSubstr_iff (s pat : String) :
    containsSubstr s pat = true ↔ ContainsSubstr s pat :=
  containsSubstrChars_iff pat.data s.data

/-- The three stderr markers the close handler recognizes as "the resume
handle is stale" (src/unnamed/part_003 lines 334-338). -/
def invalidSessionMarkers : List String :=
  ["No conversation found with session ID", "Invalid session", "session not found"]

/-- Result object resolved by `callClaude`.  Resolutions that do not
mention the `invalidSession` field leave it absent, i.e. falsy — modelled
by the default `false`. -/
structure ClaudeResult where
  result : String
  sessionId : Option String
  success : Bool
  invalidSession : Bool := false
deriving DecidableEq

/-- JS `a || b` where `a` is a possibly absent string field: null/undefined
and the empty string fall through to `b`. -/
def jsOrString (a : Option String) (b : String) : String :=
  match a with
  | some s => if s = "" then b else s
  | none => b

/-- JS `a || null` for a possibly absent string field. -/
def jsOrNull (a : Option String) : Option String :=
  match a with
  | some s => if s = "" then none else some s
  | none => none

/-- Fields of the parsed JSON stdout object read by the close handler. -/
structure ParsedOutput where
  result : Option String
  message : Option String
  session_id : Option String

/-- The `close` handler of the validated `callClaude`
(src/unnamed/part_003 lines 323-366).  `code` is the subprocess exit code,
`parsed` is `some` of the parsed object when `JSON.parse(stdout)` succeeds
and `none` when it throws. -/
def closeHandler (code : Int) (stdout stderr : String) (parsed : Option ParsedOutput) :
    ClaudeResult :=
  if code ≠ 0 then
    { result := "Claude Code encountered an error. Please try again.",
      sessionId := none, success := false,
      invalidSession :=
        if stderr = "" then false
        else invalidSessionMarkers.any (fun m => containsSubstr stderr m) }
  else
    match parsed with
    | some output =>
        { result := jsOrString output.result (jsOrString output.message stdout),
          sessionId := jsOrNull output.session_id, success := true }
    | none =>
        { result := if stdout = "" then "No output" else stdout,
          sessionId := none, success := true }

/-- Resolution of the timeout handler (the `setTimeout` callback in
`callClaude`): SIGTERM the child and resolve a failure that does not carry
the `invalidSession` field.  JS computes `timeout / 1000` in float
arithmetic; `Nat` division agrees on the multiples of 1000 used by
callers. -/
def timeoutResult (timeoutMs : Nat) : ClaudeResult :=
  { result := "Request timed out after " ++ toString (timeoutMs / 1000) ++ " seconds",
    sessionId := none, success := false }

/-- Resolution of the `error` (spawn-failure) handler of `callClaude`. -/
def spawnErrorResult : ClaudeResult :=
  { result := "Failed to start Claude Code. Please check installation.",
    sessionId := none, success := false }

/-- Claim C7: on non-zero exit the resolved result carries
`invalidSession = true` exactly when the captured stderr contains one of
the three known session-invalid substrings; every other resolution — zero
exit (JSON or not), timeout, spawn error — leaves the flag unset, so the
caller preserves the stored session handle. -/
theorem c7_invalid_session_flag :
    (∀ code stdout stderr parsed, code ≠ 0 →
        ((closeHandler code stdout stderr parsed).invalidSession = true ↔
          ∃ m ∈ invalidSessionMarkers, ContainsSubstr stderr m)) ∧
    (∀ code stdout stderr parsed, code = 0 →
        (closeHandler code stdout stderr parsed).invalidSession = false) ∧
    (∀ t, (timeoutResult t).invalidSession = false) ∧
    spawnErrorResult.invalidSession = false := by
  refine ⟨?_, ?_, fun t => rfl, rfl⟩
  · intro code stdout stderr parsed hc
    have key : (if stderr = "" then false
          else invalidSessionMarkers.any (fun m => containsSubstr stderr m)) = true ↔
        ∃ m ∈ invalidSessionMarkers, ContainsSubstr stderr m := by
      by_cases hse : stderr = ""
      · subst hse
        rw [if_pos rfl]
        constructor
        · intro h; exact absurd h (by simp)
        · rintro ⟨m, hm, hc2⟩
          rw [← containsSubstr_iff] at hc2
          simp only [invalidSessionMarkers, List.mem_cons, List.mem_singleton] at hm
          rcases hm with rfl | rfl | rfl | hm
          · exact absurd hc2 (by decide)
          · exact absurd hc2 (by decide)
          · exact absurd hc2 (by decide)
          · exact absurd hm (by simp)
      · rw [if_neg hse, List.any_eq_true]
        constructor
        · rintro ⟨m, hm, hc2⟩; exact ⟨m, hm, (containsSubstr_iff _ _).mp hc2⟩
        · rintro ⟨m, hm, hc2⟩; exact ⟨m, hm, (containsSubstr_iff _ _).mpr hc2⟩
    unfold closeHandler
    rw [if_pos hc]
    exact key
  · intro code stdout stderr parsed hc
    subst hc
    cases parsed <;> simp [closeHandler]

/-- Witness for C7: a non-zero exit whose stderr is exactly the
`Invalid session` marker sets the flag; a clean exit and a timeout do
not. -/
theorem c7_invalid_session_flag_witness :
    (closeHandler 1 "" "Invalid session" none).invalidSession = true ∧
    (closeHandler 0 "hi" "" none).invalidSession = false ∧
    (timeoutResult 300000).invalidSession = false := by
  refine ⟨?_, c7_invalid_session_flag.2.1 0 "hi" "" none rfl,
    c7_invalid_session_flag.2.2.1 300000⟩
  exact (c7_invalid_session_flag.1 1 "" "Invalid session" none (by decide)).mpr
    ⟨"Invalid session", by simp [invalidSessionMarkers], ⟨[], [], by simp⟩⟩

end ClaudeCli

namespace SessionManager

/-- One stored session record — the value of `this.sessions[key]`
(src/session-manager.js).  Fields a JS record may lack are `Option`s; the
`updatedAt` ISO string is an abstract `Nat` timestamp. -/
structure SessionRecord where
  projectDir : Option String
  sessionId : Option String
  updatedAt : Nat
deriving DecidableEq

/-- `getKey(platform, chatId)`: the `"platform:chatId"` store key. -/
def getKey (platform chatId : String) : String :=
  platform ++ ":" ++ chatId

/-- Read of `this.sessions[key]` on the JS object modelled as an
association list. -/
def lookupKey (m : List (String × SessionRecord)) (k : String) : Option SessionRecord :=
  (m.find? (fun p => p.1 == k)).map Prod.snd

/-- Write `this.sessions[key] = v`. -/
def setKey : List (String × SessionRecord) → String → SessionRecord →
    List (String × SessionRecord)
  | [], k, v => [(k, v)]
  | (k', v') :: rest, k, v =>
      if k' == k then (k, v) :: rest else (k', v') :: setKey rest k v

/-- `getSession(platform, chatId)`: `this.sessions[key] || null`. -/
def getSession (m : List (String × SessionRecord)) (platform chatId : String) :
    Option SessionRecord :=
  lookupKey m (getKey platform chatId)

/-- JS `a || b` on a possibly absent string field: null/undefined and the
empty string fall through to `b`. -/
def jsOrElse (a b : Option String) : Option String :=
  match a with
  | some s => if s = "" then b else some s
  | none => b

/-- The `existing = this.sessions[key] || {}` default: an empty record. -/
def emptyRecord : SessionRecord :=
  { projectDir := none, sessionId := none, updatedAt := 0 }

/-- `updateSessionId(platform, chatId, sessionId, projectDir = null)`
(src/session-manager.js lines 125-135): spread of the existing record with
`sessionId` overwritten and `projectDir := projectDir || existing.projectDir`. -/
def updateSessionId (m : List (String × SessionRecord)) (platform chatId : String)
    (sessionId : Option String) (projectDir : Option String) (now : Nat) :
    List (String × SessionRecord) :=
  let key := getKey platform chatId
  let existing := (lookupKey m key).getD emptyRecord
  setKey m key
    { projectDir := jsOrElse projectDir existing.projectDir,
      sessionId := sessionId, updatedAt := now }

/-- `setProjectDir(platform, chatId, projectDir)` (src/session-manager.js
lines 140-149): spread of the existing record with `projectDir`
overwritten (`sessionId` is preserved by the spread). -/
def setProjectDir (m : List (String × SessionRecord)) (platform chatId : String)
    (projectDir : String) (now : Nat) : List (String × SessionRecord) :=
  let key := getKey platform chatId
  let existing := (lookupKey m key).getD emptyRecord
  setKey m key
    { projectDir := some projectDir, sessionId := existing.sessionId, updatedAt := now }

/-- `clearSession(platform, chatId)` (src/session-manager.js lines
154-163): rebuilds the record keeping only `projectDir`, with
`sessionId: null`. -/
def clearSession (m : List (String × SessionRecord)) (platform chatId : String)
    (now : Nat) : List (String × SessionRecord) :=
  let key := getKey platform chatId
  let existing := (lookupKey m key).getD emptyRecord
  setKey m key
    { projectDir := existing.projectDir, sessionId := none, updatedAt := now }

theorem lookupKey_setKey (m : List (String × SessionRecord)) (k : String)
    (v : SessionRecord) : lookupKey (setKey m k v) k = some v := by
  induction m with
  | nil => simp [setKey, lookupKey]
  | cons p rest ih =>
    obtain ⟨k', v'⟩ := p
    by_cases h : k' == k
    · simp [setKey, h, lookupKey]
    · simp only [setKey, h, if_false]
      simpa [lookupKey, List.find?_cons, h] using ih

/-- Claim C8: for every chat and store contents, `setProjectDir(c, "/a")`
followed by `updateSessionId(c, "sid1")` makes `getSession(c)` return a
record with `projectDir = "/a"` and `sessionId = "sid1"`; a subsequent
`clearSession(c)` preserves `projectDir = "/a"` and nulls `sessionId`. -/
theorem c8_session_roundtrip (m : List (String × SessionRecord))
    (platform chatId : String) (now1 now2 now3 : Nat) :
    getSession (updateSessionId (setProjectDir m platform chatId "/a" now1)
        platform chatId (some "sid1") none now2) platform chatId =
      some { projectDir := some "/a", sessionId := some "sid1", updatedAt := now2 } ∧
    getSession (clearSession (updateSessionId (setProjectDir m platform chatId "/a" now1)
        platform chatId (some "sid1") none now2) platform chatId now3) platform chatId =
      some { projectDir := some "/a", sessionId := none, updatedAt := now3 } := by
  constructor
  · simp [getSession, updateSessionId, setProjectDir, lookupKey_setKey, jsOrElse]
  · simp [getSession, clearSession, updateSessionId, setProjectDir, lookupKey_setKey, jsOrElse]

end SessionManager

namespace Shortcuts

/-- JS whitespace class `\s` (ASCII part; `split(/\s+/)` and `trim` use the
same class — the rare non-ASCII whitespace code points are not involved in
shortcut texts). -/
def isJsWs (c : Char) : Bool :=
  c == ' ' || c == '\t' || c == '\n' || c == '\r' || c == Char.ofNat 11 || c == Char.ofNat 12

/-- `str.split(/\s+/)`: split on maximal whitespace runs.  A leading run
yields a leading empty token and a trailing run a trailing empty token,
exactly as in JavaScript.  `acc` holds the current token reversed, `prevWs`
whether the previous character was whitespace. -/
def splitWsGo : List Char → List Char → Bool → List String
  | [], acc, _ => [String.mk acc.reverse]
  | c :: cs, acc, prevWs =>
      if isJsWs c then
        if prevWs then splitWsGo cs acc true
        else String.mk acc.reverse :: splitWsGo cs [] true
      else splitWsGo cs (c :: acc) false

def splitWs (s : String) : List String :=
  splitWsGo s.data [] false

/-- Literal global replacement: JS
`expanded.replace(new RegExp('\\$' + i, 'g'), arg)` replaces every
occurrence of the literal pattern `$<i>` left to right.  `fuel` (callers
pass the text length) bounds the recursion; each step consumes at least one
character of the scanned text for the nonempty patterns used here.  The JS
`$`-escape sequences that `String.replace` interprets inside a replacement
string are not modelled. -/
def replaceAllGo (pat rep : List Char) : Nat → List Char → List Char
  | 0, l => l
  | _ + 1, [] => []
  | fuel + 1, c :: cs =>
      if pat.isPrefixOf (c :: cs) then
        rep ++ replaceAllGo pat rep fuel ((c :: cs).drop pat.length)
      else
        c :: replaceAllGo pat rep fuel cs

def replaceAll (s pat rep : String) : String :=
  String.mk (replaceAllGo pat.data rep.data s.data.length s.data)

/-- `expanded.replace(/\$\d+/g, '')`: delete every `$` that is directly
followed by a digit, together with the maximal digit run after it.
Implemented as a right fold: scanning right to left, a `$` whose processed
suffix starts with a digit swallows that digit run — because `\d+` is
greedy this computes exactly the left-to-right global regex replacement. -/
def stripPlaceholders (l : List Char) : List Char :=
  l.foldr
    (fun c out =>
      if c == '$' && (out.headD ' ').isDigit then out.dropWhile Char.isDigit
      else c :: out)
    []

/-- JS `String.trim()` (whitespace from both ends). -/
def trimWs (l : List Char) : List Char :=
  ((l.dropWhile isJsWs).reverse.dropWhile isJsWs).reverse

/-- JS `toLowerCase` for the ASCII shortcut names involved. -/
def toLowerStr (s : String) : String :=
  String.mk (s.data.map Char.toLower)

/-- `message.startsWith('/')`. -/
def startsWithSlash (s : String) : Bool :=
  match s.data with
  | c :: _ => c == '/'
  | [] => false

/-- `getShortcut(platform, chatId, name)` (src/shortcuts-manager.js lines
165-170): case-insensitive lookup returning the stored command string or
null.  The per-chat shortcut object is an association list name → command
(`createdAt`/`updatedAt` are never read by expansion). -/
def getShortcut (shortcuts : List (String × String)) (name : String) : Option String :=
  (shortcuts.find? (fun p => p.1 == toLowerStr name)).map Prod.snd

/-- The substitution loop `for (let i = 1; i < parts.length; i++)`:
replace `$i` by `parts[i]`, in index order. -/
def substArgs : String → List String → Nat → String
  | e, [], _ => e
  | e, a :: as, i => substArgs (replaceAll e ("$" ++ toString i) a) as (i + 1)

/-- `ShortcutsManager.expandShortcut(platform, chatId, message)`
(src/shortcuts-manager.js lines 232-254): null unless the message starts
with `/`; split the rest on whitespace; look the first token up
case-insensitively; on a hit substitute `$1..$N` with the remaining
tokens, strip unused `$<digits>` placeholders and trim. -/
def expandShortcut (shortcuts : List (String × String)) (message : String) :
    Option String :=
  if startsWithSlash message = false then none
  else
    let parts := splitWs (String.mk (message.data.drop 1))
    let shortcutName := toLowerStr (parts.headD "")
    match getShortcut shortcuts shortcutName with
    | none => none
    | some command =>
        if command = "" then none
        else
          let expanded := substArgs command (parts.drop 1) 1
          some (String.mk (trimWs (stripPlaceholders expanded.data)))

/-- Claim C9: `expandShortcut` returns null for every message that does not
start with the `/` prefix and for every prefixed message whose first token
matches no stored shortcut; with the stored shortcut
`build → "run npm $1"`, `/build test` expands to `"run npm test"`
(argument substituted for `$1`) and `/build` expands to `"run npm"`
(unused placeholder stripped, result trimmed). -/
theorem c9_expandShortcut :
    (∀ shortcuts message, startsWithSlash message = false →
        expandShortcut shortcuts message = none) ∧
    (∀ shortcuts message, startsWithSlash message = true →
        getShortcut shortcuts
          (toLowerStr ((splitWs (String.mk (message.data.drop 1))).headD "")) = none →
        expandShortcut shortcuts message = none) ∧
    expandShortcut [("build", "run npm $1")] "/build test" = some "run npm test" ∧
    expandShortcut [("build", "run npm $1")] "/build" = some "run npm" := by
  refine ⟨?_, ?_, by decide, by decide⟩
  · intro shortcuts message h
    simp [expandShortcut, h]
  · intro shortcuts message h hn
    simp at hn
    simp [expandShortcut, h, hn]

/-- Witness for C9: a message without the prefix and an unknown command
both fall through to null on a concrete store. -/
theorem c9_expandShortcut_witness :
    expandShortcut [("build", "run npm $1")] "hello build" = none ∧
    expandShortcut [("build", "run npm $1")] "/unknowncmd test" = none := by
  constructor
  · exact c9_expandShortcut.1 _ "hello build" (by decide)
  · exact c9_expandShortcut.2.1 _ "/unknowncmd test" (by decide) (by decide)

end Shortcuts

end Ccdd
